import Mathlib

/-!
Verification of the circulation and payment lifecycle engine of the
e-library backend.

The embedding models the relational store as in-memory lists of rows and
each route handler as a pure state-transforming function.  Row lookups
(`prisma.<table>.findUnique` on a unique key) become first-match searches,
row updates (`prisma.<table>.update where <key>`) become maps over the row
list, and a `prisma.$transaction` whose inner update would throw (missing
target row) is modelled as an `Internal` error that leaves the state
unchanged (rollback-on-exception semantics).

Store-generated values (fresh ids, `now()` timestamps, the column defaults
`issued_date = now`, `returned_date = null`, `transaction_id = null`,
`paid_at = null`; the Prisma schema file is not part of the sources, these
defaults are modelled from the spec's data model) are passed in as explicit
parameters.
-/

/-- Catalog status of a book, `status ∈ {AVAILABLE, ISSUED}`. -/
inductive BookStatus
  | AVAILABLE
  | ISSUED
deriving DecidableEq

/-- Failure kinds of the engine operations: `NotFound` maps to HTTP 404,
`Conflict` to 409, `BadRequest` to 400, `Forbidden` to 403, and `Internal`
to the generic 500 produced when a transaction is rolled back by an
exception. -/
inductive ErrKind
  | NotFound
  | Conflict
  | BadRequest
  | Forbidden
  | Internal
deriving DecidableEq

/-- Caller roles carried in the JWT credential. -/
inductive Role
  | USER
  | LIBRARY_ADMIN
  | SUPER_ADMIN
deriving DecidableEq

/-- A catalog row (`Book` entity).  Ids and dates are modelled as `Nat`. -/
structure Book where
  book_id : Nat
  book_name : String
  author_name : String
  category : String
  publication_year : Nat
  library_location : String
  status : BookStatus
  created_at : Nat
deriving DecidableEq

/-- An issue-ledger row (`BookIssue` entity); an issue is open iff
`returned_date = none`. -/
structure BookIssue where
  issue_id : Nat
  book_id : Nat
  user_id : Nat
  issued_date : Nat
  due_date : Nat
  returned_date : Option Nat
deriving DecidableEq

/-- State of the circulation engine's store: the book catalog, the issue
ledger, and the set of existing user ids (only existence of a user matters
to the circulation routes). -/
structure LibState where
  books : List Book
  issues : List BookIssue
  users : List Nat
deriving DecidableEq

/-- Embeds `prisma.book.findUnique({ where: { book_id } })`. -/
def findBook : List Book → Nat → Option Book
  | [], _ => none
  | b :: rest, bid => if b.book_id = bid then some b else findBook rest bid

/-- Embeds `prisma.book.update({ where: { book_id }, data: { status } })`. -/
def setBookStatus (books : List Book) (bid : Nat) (st : BookStatus) : List Book :=
  books.map (fun b => if b.book_id = bid then { b with status := st } else b)

/-- Pre-transaction phase of `POST /books/issue` (books.ts lines 145-152):
the book lookup, the availability check and the user lookup, all executed
BEFORE `prisma.$transaction` begins.  Returns the error the route responds
with, or `none` when the checks pass. -/
def issueBookCheck (s : LibState) (book_id user_id : Nat) : Option ErrKind :=
  match findBook s.books book_id with
  | none => some .NotFound
  | some book =>
    if book.status ≠ .AVAILABLE then some .Conflict
    else if s.users.contains user_id = false then some .NotFound
    else none

/-- Transaction phase of `POST /books/issue` (books.ts lines 154-166):
create the `BookIssue` row (store defaults `issued_date = now`,
`returned_date = null`) and flip the book's status to `ISSUED`. -/
def issueBookCommit (s : LibState) (book_id user_id due_date now newId : Nat) :
    LibState × BookIssue :=
  let issue : BookIssue :=
    { issue_id := newId, book_id := book_id, user_id := user_id,
      issued_date := now, due_date := due_date, returned_date := none }
  ({ s with issues := issue :: s.issues,
            books := setBookStatus s.books book_id .ISSUED },
   issue)

/-- The full `POST /books/issue` handler: checks, then the transaction.
`now` is the store clock and `newId` the store-generated issue id. -/
def issueBook (s : LibState) (book_id user_id due_date now newId : Nat) :
    LibState × Except ErrKind BookIssue :=
  match issueBookCheck s book_id user_id with
  | some e => (s, .error e)
  | none =>
    let r := issueBookCommit s book_id user_id due_date now newId
    (r.1, .ok r.2)

/-- The `where` filter of the `findFirst` in `POST /books/return`
(books.ts lines 184-191): open (`returned_date: null`) and matching each
selector that was supplied (the spread of `issue_id` / `book_id` filters
is conjunctive). -/
def openMatches (i : BookIssue) (iid? bid? : Option Nat) : Bool :=
  decide (i.returned_date = none)
    && (match iid? with | some x => decide (i.issue_id = x) | none => true)
    && (match bid? with | some x => decide (i.book_id = x) | none => true)

/-- Embeds `orderBy: { issued_date: 'desc' }` followed by taking the first
row: an element of maximal `issued_date` (ties resolved to the earlier
row, the store's order among equal keys being unspecified). -/
def pickLatest : List BookIssue → Option BookIssue
  | [] => none
  | i :: rest =>
    match pickLatest rest with
    | none => some i
    | some j => if j.issued_date > i.issued_date then some j else some i

/-- Embeds `tx.bookIssue.update({ where: { issue_id }, data: { returned_date } })`. -/
def closeIssue (issues : List BookIssue) (iid now : Nat) : List BookIssue :=
  issues.map (fun i => if i.issue_id = iid then { i with returned_date := some now } else i)

/-- The `POST /books/return` handler (books.ts lines 172-211): requires at
least one selector, picks the most recently issued open issue matching the
selectors, then in one transaction stamps `returned_date = now` on it and
sets the book IDENTIFIED BY THE MATCHED ISSUE's `book_id` back to
`AVAILABLE`.  If the matched issue's book row is absent the inner update
throws and the transaction rolls back (`Internal`, state unchanged). -/
def returnBook (s : LibState) (iid? bid? : Option Nat) (now : Nat) :
    LibState × Except ErrKind BookIssue :=
  if iid?.isNone && bid?.isNone then (s, .error .BadRequest)
  else
    match pickLatest (s.issues.filter (fun i => openMatches i iid? bid?)) with
    | none => (s, .error .NotFound)
    | some issue =>
      match findBook s.books issue.book_id with
      | none => (s, .error .Internal)
      | some _ =>
        ({ s with issues := closeIssue s.issues issue.issue_id now,
                  books := setBookStatus s.books issue.book_id .AVAILABLE },
         .ok { issue with returned_date := some now })

/-- Number of open issues in the ledger for a given `book_id`. -/
def countOpen : List BookIssue → Nat → Nat
  | [], _ => 0
  | i :: rest, bid =>
      (if i.book_id = bid ∧ i.returned_date = none then 1 else 0) + countOpen rest bid

/-- Issue ids are store-generated unique keys. -/
def UniqueIssueIds (issues : List BookIssue) : Prop :=
  issues.Pairwise (fun a b => a.issue_id ≠ b.issue_id)

/-- Book ids are store-generated unique keys. -/
def UniqueBookIds (books : List Book) : Prop :=
  books.Pairwise (fun a b => a.book_id ≠ b.book_id)

/-- A consistent store state: unique keys, and the spec's circulation
invariant — a book is `ISSUED` iff exactly one open issue references it,
and never more than one open issue per book. -/
def Consistent (s : LibState) : Prop :=
  UniqueBookIds s.books ∧ UniqueIssueIds s.issues ∧
    ∀ b ∈ s.books,
      (b.status = .ISSUED ↔ countOpen s.issues b.book_id = 1) ∧
        countOpen s.issues b.book_id ≤ 1

/-- One engine operation applied to the store: an `issueBook` call (the
store hands out a fresh issue id) or a `returnBook` call. -/
inductive Step : LibState → LibState → Prop
  | issue (s : LibState) (book_id user_id due_date now newId : Nat)
      (hfresh : ∀ i ∈ s.issues, i.issue_id ≠ newId) :
      Step s (issueBook s book_id user_id due_date now newId).1
  | ret (s : LibState) (iid? bid? : Option Nat) (now : Nat) :
      Step s (returnBook s iid? bid? now).1

/-- States reachable by a sequence of issue/return operations. -/
inductive Reachable : LibState → LibState → Prop
  | refl (s : LibState) : Reachable s s
  | tail {s t u : LibState} : Reachable s t → Step t u → Reachable s u

/-- Payment status of a `Payment` or a `PrintJob`. -/
inductive PayStatus
  | PENDING
  | SUCCESS
  | FAILED
deriving DecidableEq

/-- Payment methods accepted by the initiate schema, `z.enum(['UPI','GPAY'])`. -/
inductive PaymentMethod
  | UPI
  | GPAY
deriving DecidableEq

/-- Outcomes accepted by the verify schema, `z.enum(['SUCCESS','FAILED'])`. -/
inductive VerifyStatus
  | SUCCESS
  | FAILED
deriving DecidableEq

/-- The payment status written by a verify outcome. -/
def VerifyStatus.toPayStatus : VerifyStatus → PayStatus
  | .SUCCESS => .SUCCESS
  | .FAILED => .FAILED

/-- A print job row (`PrintJob` entity); `total_cost` is an integer
(`total_pages × cost_per_page`, both integers at upload). -/
structure PrintJob where
  print_id : Nat
  user_id : Nat
  file_name : String
  total_pages : Nat
  cost_per_page : Nat
  total_cost : Nat
  payment_status : PayStatus
deriving DecidableEq

/-- A payment ledger row (`Payment` entity). -/
structure Payment where
  payment_id : Nat
  user_id : Nat
  print_id : Nat
  payment_method : PaymentMethod
  transaction_id : Option String
  payment_status : PayStatus
  paid_at : Option Nat
deriving DecidableEq

/-- State of the payment engine's store. -/
structure PayState where
  jobs : List PrintJob
  payments : List Payment
deriving DecidableEq

/-- Embeds `prisma.printJob.findUnique({ where: { print_id } })`. -/
def findJob : List PrintJob → Nat → Option PrintJob
  | [], _ => none
  | j :: rest, pid => if j.print_id = pid then some j else findJob rest pid

/-- Embeds `prisma.payment.findUnique({ where: { payment_id } })`. -/
def findPayment : List Payment → Nat → Option Payment
  | [], _ => none
  | p :: rest, pid => if p.payment_id = pid then some p else findPayment rest pid

/-- Uppercase hex digit of a value below 16. -/
def hexDigitChar (n : Nat) : Char :=
  if n < 10 then Char.ofNat (48 + n) else Char.ofNat (55 + n)

/-- Percent-encoding of one byte, `%XX` with uppercase hex. -/
def percentByte (b : Nat) : String :=
  String.mk ['%', hexDigitChar (b / 16 % 16), hexDigitChar (b % 16)]

/-- UTF-8 bytes of a character. -/
def utf8Bytes (c : Char) : List Nat :=
  let n := c.toNat
  if n < 128 then [n]
  else if n < 2048 then [192 + n / 64, 128 + n % 64]
  else if n < 65536 then [224 + n / 4096, 128 + n / 64 % 64, 128 + n % 64]
  else [240 + n / 262144, 128 + n / 4096 % 64, 128 + n / 64 % 64, 128 + n % 64]

/-- Characters serialized verbatim by `application/x-www-form-urlencoded`. -/
def formSafeChar (c : Char) : Bool :=
  c.isAlpha || c.isDigit || c = '*' || c = '-' || c = '.' || c = '_'

/-- Form-urlencoded serialization of one character, as produced by the
WHATWG `URLSearchParams` serializer used by `uri.searchParams.set`. -/
def encodeFormChar (c : Char) : String :=
  if c = ' ' then "+"
  else if formSafeChar c then String.singleton c
  else String.join ((utf8Bytes c).map percentByte)

/-- Form-urlencoded serialization of a string. -/
def formUrlEncode (s : String) : String :=
  String.join (s.data.map encodeFormChar)

/-- JavaScript's `Number.prototype.toFixed(2)` on the integer amounts this
system produces (`total_cost` is an integer): `n ↦ "n.00"`. -/
def toFixed2 (n : Nat) : String := toString n ++ ".00"

/-- Parameter record of `buildUpiPayUri` (utils/upi.ts). -/
structure UpiParams where
  payeeVpa : String
  payeeName : String
  amount : Nat
  transactionNote : String
  transactionRef : String

/-- Embeds `buildUpiPayUri` (utils/upi.ts lines 1-18): a `upi://pay` URL
whose query parameters are set in the order pa, pn, am, cu, tn, tr, with
`am` the amount via `toFixed(2)` and `cu` the fixed currency code INR. -/
def buildUpiPayUri (p : UpiParams) : String :=
  "upi://pay?pa=" ++ formUrlEncode p.payeeVpa ++
  "&pn=" ++ formUrlEncode p.payeeName ++
  "&am=" ++ formUrlEncode (toFixed2 p.amount) ++
  "&cu=" ++ formUrlEncode "INR" ++
  "&tn=" ++ formUrlEncode p.transactionNote ++
  "&tr=" ++ formUrlEncode p.transactionRef

/-- The UPI environment configuration (`env.UPI_VPA`, `env.UPI_PAYEE_NAME`). -/
structure UpiConfig where
  vpa : String
  payeeName : String

/-- The `POST /payment/initiate` handler: look up the job, check ownership,
reject an already-paid job, create a `PENDING` payment (store defaults
`transaction_id = null`, `paid_at = null`; `newPid` is the store-generated
payment id) and build the UPI URI from the job's data and the new payment's
id.  The print job row is not touched. -/
def initiatePayment (cfg : UpiConfig) (s : PayState) (print_id : Nat)
    (method : PaymentMethod) (requester newPid : Nat) :
    PayState × Except ErrKind (Payment × String) :=
  match findJob s.jobs print_id with
  | none => (s, .error .NotFound)
  | some job =>
    if job.user_id ≠ requester then (s, .error .Forbidden)
    else if job.payment_status = .SUCCESS then (s, .error .Conflict)
    else
      let payment : Payment :=
        { payment_id := newPid, user_id := requester, print_id := print_id,
          payment_method := method, transaction_id := none,
          payment_status := .PENDING, paid_at := none }
      let uri := buildUpiPayUri
        { payeeVpa := cfg.vpa, payeeName := cfg.payeeName,
          amount := job.total_cost,
          transactionNote := "Print job " ++ toString job.print_id,
          transactionRef := toString payment.payment_id }
      ({ s with payments := payment :: s.payments }, .ok (payment, uri))

/-- Embeds `tx.printJob.update({ where: { print_id }, data: { payment_status } })`. -/
def setJobStatus (jobs : List PrintJob) (pid : Nat) (st : PayStatus) : List PrintJob :=
  jobs.map (fun j => if j.print_id = pid then { j with payment_status := st } else j)

/-- Embeds `tx.payment.update({ where: { payment_id }, data: {...} })`. -/
def updatePaymentRow (ps : List Payment) (pid : Nat) (tx : String) (st : PayStatus)
    (paidAt : Option Nat) : List Payment :=
  ps.map (fun p =>
    if p.payment_id = pid then
      { p with transaction_id := some tx, payment_status := st, paid_at := paidAt }
    else p)

/-- The `POST /payment/verify` handler: look up the payment, check
ownership, then in ONE transaction update the payment (`transaction_id`,
`payment_status`, `paid_at = now` iff SUCCESS else null) and propagate the
status onto the parent print job.  A missing parent job makes the inner
update throw and the transaction roll back (`Internal`, state unchanged). -/
def verifyPayment (s : PayState) (payment_id : Nat) (tx : String)
    (st : VerifyStatus) (requester now : Nat) :
    PayState × Except ErrKind Payment :=
  match findPayment s.payments payment_id with
  | none => (s, .error .NotFound)
  | some payment =>
    if payment.user_id ≠ requester then (s, .error .Forbidden)
    else
      match findJob s.jobs payment.print_id with
      | none => (s, .error .Internal)
      | some _ =>
        let paidAt := if st = .SUCCESS then some now else none
        let updated : Payment :=
          { payment with transaction_id := some tx,
                         payment_status := st.toPayStatus, paid_at := paidAt }
        ({ jobs := setJobStatus s.jobs payment.print_id st.toPayStatus,
           payments := updatePaymentRow s.payments payment_id tx st.toPayStatus paidAt },
         .ok updated)

/-- The print-job summary returned by `GET /payment/status/:id`. -/
structure JobSummary where
  total_cost : Nat
  payment_status : PayStatus
deriving DecidableEq

/-- The `GET /payment/status/:id` handler: a read-only operation.  The
lookup includes the parent print job (a required relation; its absence is
a store-integrity failure).  Readable by the payment's owner or by
LIBRARY_ADMIN / SUPER_ADMIN; every other requester gets `Forbidden`. -/
def paymentStatus (s : PayState) (pid : Nat) (reqId : Nat) (reqRole : Role) :
    Except ErrKind (Payment × JobSummary) :=
  match findPayment s.payments pid with
  | none => .error .NotFound
  | some p =>
    match findJob s.jobs p.print_id with
    | none => .error .Internal
    | some j =>
      let isOwner := decide (p.user_id = reqId)
      let isAdmin := decide (reqRole = .LIBRARY_ADMIN) || decide (reqRole = .SUPER_ADMIN)
      if !isOwner && !isAdmin then .error .Forbidden
      else .ok (p, { total_cost := j.total_cost, payment_status := j.payment_status })

/-- A concrete book used by witnesses. -/
def mkBook (id : Nat) (st : BookStatus) : Book :=
  { book_id := id, book_name := "B", author_name := "A", category := "C",
    publication_year := 2000, library_location := "L", status := st, created_at := 0 }

example : (issueBook ⟨[mkBook 1 .AVAILABLE], [], [7]⟩ 1 7 30 10 100).2 =
    .ok { issue_id := 100, book_id := 1, user_id := 7, issued_date := 10,
          due_date := 30, returned_date := none } := rfl

example : (issueBook ⟨[mkBook 1 .ISSUED], [], [7]⟩ 1 7 30 10 100).2 =
    .error .Conflict := rfl

theorem findBook_eq_some {l : List Book} {bid : Nat} {b : Book}
    (h : findBook l bid = some b) : b ∈ l ∧ b.book_id = bid := by
  induction l with
  | nil => simp [findBook] at h
  | cons x rest ih =>
    by_cases hx : x.book_id = bid
    · rw [findBook, if_pos hx] at h
      injection h with h
      subst h
      exact ⟨List.mem_cons_self _ _, hx⟩
    · rw [findBook, if_neg hx] at h
      obtain ⟨hmem, hid⟩ := ih h
      exact ⟨List.mem_cons_of_mem _ hmem, hid⟩

theorem countOpen_pos_of_mem {l : List BookIssue} {m : BookIssue} {bid : Nat}
    (hm : m ∈ l) (hopen : m.returned_date = none) (hb : m.book_id = bid) :
    1 ≤ countOpen l bid := by
  induction l with
  | nil => simp at hm
  | cons i rest ih =>
    rcases List.mem_cons.mp hm with h | h
    · subst h
      simp only [countOpen, if_pos (And.intro hb hopen)]
      omega
    · have := ih h
      simp only [countOpen]
      omega

theorem closeIssue_id_not_mem {l : List BookIssue} {iid now : Nat}
    (h : ∀ i ∈ l, i.issue_id ≠ iid) : closeIssue l iid now = l := by
  induction l with
  | nil => rfl
  | cons i rest ih =>
    have hi : i.issue_id ≠ iid := h i (List.mem_cons_self _ _)
    simp only [closeIssue, List.map_cons, if_neg hi]
    have := ih (fun j hj => h j (List.mem_cons_of_mem _ hj))
    simp only [closeIssue] at this
    rw [this]

theorem countOpen_closeIssue {l : List BookIssue} {m : BookIssue} {now bid : Nat}
    (huniq : UniqueIssueIds l) (hm : m ∈ l) :
    countOpen (closeIssue l m.issue_id now) bid =
      countOpen l bid - (if m.book_id = bid ∧ m.returned_date = none then 1 else 0) := by
  induction l with
  | nil => simp at hm
  | cons i rest ih =>
    obtain ⟨hhead, hrest⟩ := List.pairwise_cons.mp huniq
    rcases List.mem_cons.mp hm with h | h
    · subst h
      have hr : closeIssue rest m.issue_id now = rest :=
        closeIssue_id_not_mem (fun j hj => fun hje => hhead j hj hje.symm)
      have hstep : closeIssue (m :: rest) m.issue_id now =
          ({ m with returned_date := some now } : BookIssue) :: rest := by
        unfold closeIssue at hr ⊢
        rw [List.map_cons, hr, if_pos rfl]
      rw [hstep]
      simp only [countOpen]
      by_cases hb : m.book_id = bid <;> by_cases ho : m.returned_date = none <;>
        simp [hb, ho] <;> omega
    · have hi : i.issue_id ≠ m.issue_id := fun hje => hhead m h hje
      have hstep : closeIssue (i :: rest) m.issue_id now =
          i :: closeIssue rest m.issue_id now := by
        unfold closeIssue
        simp only [List.map_cons, if_neg hi]
      rw [hstep]
      have ihr := ih hrest h
      simp only [countOpen, ihr]
      by_cases hcond : m.book_id = bid ∧ m.returned_date = none
      · have hge : 1 ≤ countOpen rest bid := countOpen_pos_of_mem h hcond.2 hcond.1
        simp only [if_pos hcond]
        omega
      · simp only [if_neg hcond]
        omega

theorem uniqueBookIds_setBookStatus {l : List Book} {bid : Nat} {st : BookStatus}
    (h : UniqueBookIds l) : UniqueBookIds (setBookStatus l bid st) := by
  unfold UniqueBookIds setBookStatus
  refine List.Pairwise.map _ ?_ h
  intro a b hab
  by_cases ha : a.book_id = bid <;> by_cases hb : b.book_id = bid <;>
    simp [ha, hb, hab] <;> omega

theorem uniqueIssueIds_closeIssue {l : List BookIssue} {iid now : Nat}
    (h : UniqueIssueIds l) : UniqueIssueIds (closeIssue l iid now) := by
  unfold UniqueIssueIds closeIssue
  refine List.Pairwise.map _ ?_ h
  intro a b hab
  by_cases ha : a.issue_id = iid <;> by_cases hb : b.issue_id = iid <;>
    simp [ha, hb, hab] <;> omega

theorem mem_setBookStatus {l : List Book} {bid : Nat} {st : BookStatus} {b' : Book}
    (h : b' ∈ setBookStatus l bid st) :
    ∃ b ∈ l, b' = if b.book_id = bid then { b with status := st } else b := by
  obtain ⟨b, hb, hfb⟩ := List.mem_map.mp h
  exact ⟨b, hb, hfb.symm⟩

theorem pickLatest_mem {l : List BookIssue} {m : BookIssue}
    (h : pickLatest l = some m) : m ∈ l := by
  induction l with
  | nil => simp [pickLatest] at h
  | cons i rest ih =>
    rw [pickLatest] at h
    split at h
    · injection h with h
      subst h
      exact List.mem_cons_self _ _
    · rename_i j hr
      split at h
      · injection h with h
        subst h
        exact List.mem_cons_of_mem _ (ih hr)
      · injection h with h
        subst h
        exact List.mem_cons_self _ _

theorem pickLatest_eq_none {l : List BookIssue} : pickLatest l = none ↔ l = [] := by
  cases l with
  | nil => simp [pickLatest]
  | cons i rest =>
    constructor
    · intro h
      rw [pickLatest] at h
      split at h
      · exact Option.noConfusion h
      · split at h <;> exact Option.noConfusion h
    · intro h
      exact absurd h (List.cons_ne_nil i rest)

theorem pickLatest_maximal {l : List BookIssue} {m : BookIssue}
    (h : pickLatest l = some m) : ∀ j ∈ l, j.issued_date ≤ m.issued_date := by
  induction l generalizing m with
  | nil => simp
  | cons i rest ih =>
    intro j hj
    rw [pickLatest] at h
    split at h
    · rename_i hr
      injection h with h
      subst h
      have : rest = [] := pickLatest_eq_none.mp hr
      subst this
      rcases List.mem_cons.mp hj with rfl | hjr
      · exact Nat.le_refl _
      · simp at hjr
    · rename_i k hr
      split at h
      · rename_i hd
        injection h with h
        subst h
        rcases List.mem_cons.mp hj with rfl | hjr
        · omega
        · exact ih hr j hjr
      · rename_i hd
        injection h with h
        subst h
        rcases List.mem_cons.mp hj with rfl | hjr
        · exact Nat.le_refl _
        · have hk := ih hr j hjr
          omega

theorem openMatches_open {i : BookIssue} {iid? bid? : Option Nat}
    (h : openMatches i iid? bid? = true) : i.returned_date = none := by
  unfold openMatches at h
  simp only [Bool.and_eq_true, decide_eq_true_eq] at h
  exact h.1.1

theorem consistent_issueBook {s : LibState} (hc : Consistent s)
    (bid uid due now nid : Nat) (hfresh : ∀ i ∈ s.issues, i.issue_id ≠ nid) :
    Consistent (issueBook s bid uid due now nid).1 := by
  cases hchk : issueBookCheck s bid uid with
  | some e =>
    simp only [issueBook, hchk]
    exact hc
  | none =>
    simp only [issueBook, hchk, issueBookCommit]
    unfold issueBookCheck at hchk
    cases hfb : findBook s.books bid with
    | none =>
      rw [hfb] at hchk
      exact Option.noConfusion hchk
    | some book =>
      rw [hfb] at hchk
      have hchk' : (if book.status ≠ .AVAILABLE then some ErrKind.Conflict
          else if s.users.contains uid = false then some ErrKind.NotFound else none) =
            none := hchk
      by_cases hst : book.status = .AVAILABLE
      case neg =>
        rw [if_pos hst] at hchk'
        exact Option.noConfusion hchk'
      case pos =>
        by_cases hu : s.users.contains uid = false
        case pos =>
          rw [if_neg (not_not_intro hst), if_pos hu] at hchk'
          exact Option.noConfusion hchk'
        case neg =>
          obtain ⟨hmem, hbid⟩ := findBook_eq_some hfb
          obtain ⟨hub, hui, hinv⟩ := hc
          have hbook := hinv book hmem
          rw [hbid] at hbook
          have hcount0 : countOpen s.issues bid = 0 := by
            have h1 : ¬ countOpen s.issues bid = 1 := by
              intro h1
              have := hbook.1.mpr h1
              rw [hst] at this
              exact BookStatus.noConfusion this
            have h2 := hbook.2
            omega
          have hcnt : ∀ x,
              countOpen
                (({ issue_id := nid, book_id := bid, user_id := uid, issued_date := now,
                    due_date := due, returned_date := none } : BookIssue) :: s.issues) x =
                (if bid = x then 1 else 0) + countOpen s.issues x := by
            intro x
            simp [countOpen]
          refine ⟨uniqueBookIds_setBookStatus hub,
            List.pairwise_cons.mpr ⟨fun j hj hje => hfresh j hj hje.symm, hui⟩, ?_⟩
          intro b' hb'
          obtain ⟨b, hbmem, hbe⟩ := mem_setBookStatus hb'
          by_cases hbb : b.book_id = bid
          · rw [hbe, if_pos hbb]
            simp [hcnt, hbb, hcount0]
          · rw [hbe, if_neg hbb]
            have hb := hinv b hbmem
            have hne : ¬ bid = b.book_id := fun he => hbb he.symm
            simpa [hcnt, hne] using hb

theorem consistent_returnBook {s : LibState} (hc : Consistent s)
    (iid? bid? : Option Nat) (now : Nat) :
    Consistent (returnBook s iid? bid? now).1 := by
  unfold returnBook
  split
  · exact hc
  · cases hpl : pickLatest (s.issues.filter fun i => openMatches i iid? bid?) with
    | none =>
      simp only [hpl]
      exact hc
    | some m =>
      simp only [hpl]
      cases hfb : findBook s.books m.book_id with
      | none =>
        simp only [hfb]
        exact hc
      | some bk =>
        simp only [hfb]
        have hmf := List.mem_filter.mp (pickLatest_mem hpl)
        have hopen : m.returned_date = none := openMatches_open hmf.2
        obtain ⟨hbkmem, hbkid⟩ := findBook_eq_some hfb
        obtain ⟨hub, hui, hinv⟩ := hc
        have hcount1 : countOpen s.issues m.book_id = 1 := by
          have hge := countOpen_pos_of_mem hmf.1 hopen rfl
          have hle := (hinv bk hbkmem).2
          rw [hbkid] at hle
          omega
        have hclose : ∀ x, countOpen (closeIssue s.issues m.issue_id now) x =
            countOpen s.issues x - (if m.book_id = x then 1 else 0) := by
          intro x
          rw [countOpen_closeIssue hui hmf.1]
          simp [hopen]
        refine ⟨uniqueBookIds_setBookStatus hub, uniqueIssueIds_closeIssue hui, ?_⟩
        intro b' hb'
        obtain ⟨b, hbmem, hbe⟩ := mem_setBookStatus hb'
        by_cases hbb : b.book_id = m.book_id
        · rw [hbe, if_pos hbb]
          simp [hclose, hbb, hcount1]
        · rw [hbe, if_neg hbb]
          have hb := hinv b hbmem
          have hne : ¬ m.book_id = b.book_id := fun he => hbb he.symm
          simpa [hclose, hne] using hb

theorem consistent_step {s t : LibState} (h : Step s t) (hc : Consistent s) :
    Consistent t := by
  cases h with
  | issue bid uid due now nid hfresh => exact consistent_issueBook hc bid uid due now nid hfresh
  | ret iid? bid? now => exact consistent_returnBook hc iid? bid? now

theorem consistent_reachable {s t : LibState} (h : Reachable s t) (hc : Consistent s) :
    Consistent t := by
  induction h with
  | refl => exact hc
  | tail _ hstep ih => exact consistent_step hstep ih

instance decUniqueIssueIds (l : List BookIssue) : Decidable (UniqueIssueIds l) := by
  unfold UniqueIssueIds
  infer_instance

instance decUniqueBookIds (l : List Book) : Decidable (UniqueBookIds l) := by
  unfold UniqueBookIds
  infer_instance

instance decConsistent (s : LibState) : Decidable (Consistent s) := by
  unfold Consistent
  infer_instance

theorem uniqueIssueIds_eq {l : List BookIssue} (h : UniqueIssueIds l)
    {a b : BookIssue} (ha : a ∈ l) (hb : b ∈ l) (hid : a.issue_id = b.issue_id) :
    a = b := by
  induction l with
  | nil => simp at ha
  | cons i rest ih =>
    obtain ⟨hhead, hrest⟩ := List.pairwise_cons.mp h
    rcases List.mem_cons.mp ha with rfl | ha' <;> rcases List.mem_cons.mp hb with rfl | hb'
    · rfl
    · exact absurd hid (hhead b hb')
    · exact absurd hid.symm (hhead a ha')
    · exact ih hrest ha' hb'

/-- The concrete initial state used by the C1 witness. -/
def stC1 : LibState := ⟨[mkBook 1 .AVAILABLE], [], [7]⟩

/-- C1: in every state reachable from a consistent initial state by any
sequence of issueBook and returnBook operations, a book has status `ISSUED`
iff exactly one `BookIssue` with its `book_id` has `returned_date = null`,
and there is never more than one open `BookIssue` per `book_id`. -/
theorem claim_C1 {s0 s : LibState} (hc : Consistent s0) (hr : Reachable s0 s) :
    ∀ b ∈ s.books,
      (b.status = .ISSUED ↔ countOpen s.issues b.book_id = 1) ∧
        countOpen s.issues b.book_id ≤ 1 :=
  (consistent_reachable hr hc).2.2

/-- Witness for C1: one issueBook step from a concrete consistent state. -/
theorem claim_C1_witness :
    Consistent stC1 ∧
      ∀ b ∈ ((issueBook stC1 1 7 30 10 100).1).books,
        (b.status = .ISSUED ↔
            countOpen ((issueBook stC1 1 7 30 10 100).1).issues b.book_id = 1) ∧
          countOpen ((issueBook stC1 1 7 30 10 100).1).issues b.book_id ≤ 1 :=
  ⟨by decide, claim_C1 (by decide)
    (Reachable.tail (Reachable.refl _) (Step.issue stC1 1 7 30 10 100 (by decide)))⟩

/-- C2: issueBook answers `NotFound` exactly when the book is missing or the
book is available but the user is missing, `Conflict` exactly when the book
exists with status ≠ `AVAILABLE`, and whenever it fails the state is
unchanged — no `BookIssue` row is created and no book status is changed. -/
theorem claim_C2 (s : LibState) (bid uid due now nid : Nat) :
    ((issueBook s bid uid due now nid).2 = .error .NotFound ↔
      (findBook s.books bid = none ∨
        ∃ b, findBook s.books bid = some b ∧ b.status = .AVAILABLE ∧
          s.users.contains uid = false)) ∧
    ((issueBook s bid uid due now nid).2 = .error .Conflict ↔
      (∃ b, findBook s.books bid = some b ∧ b.status ≠ .AVAILABLE)) ∧
    ((∃ i, (issueBook s bid uid due now nid).2 = .ok i) ∨
      (issueBook s bid uid due now nid).1 = s) := by
  unfold issueBook issueBookCheck
  cases hfb : findBook s.books bid with
  | none => simp [hfb]
  | some book =>
    by_cases hst : book.status = .AVAILABLE
    · by_cases hu : uid ∈ s.users
      · simp [hfb, hst, hu, if_neg (not_not_intro hst), issueBookCommit]
      · simp [hfb, hst, hu, if_neg (not_not_intro hst)]
    · simp [hfb, hst]

/-- C3: returnBook demands at least one selector (`BadRequest` otherwise),
answers `NotFound` when no open issue matches the selectors, and on success
the matched issue is an open issue matching the selectors with maximal
issued_date, its `returned_date` is set to now, and the book whose status is
flipped to `AVAILABLE` is the one identified by the MATCHED issue's
`book_id`. -/
theorem claim_C3 (s : LibState) (iid? bid? : Option Nat) (now : Nat) :
    ((iid? = none ∧ bid? = none) →
      returnBook s iid? bid? now = (s, .error .BadRequest)) ∧
    ((iid?.isSome ∨ bid?.isSome) →
      s.issues.filter (fun i => openMatches i iid? bid?) = [] →
        returnBook s iid? bid? now = (s, .error .NotFound)) ∧
    (∀ i, (returnBook s iid? bid? now).2 = .ok i →
      ∃ m ∈ s.issues,
        openMatches m iid? bid? = true ∧
          (∀ j ∈ s.issues, openMatches j iid? bid? = true →
            j.issued_date ≤ m.issued_date) ∧
          i = { m with returned_date := some now } ∧
          (returnBook s iid? bid? now).1.issues = closeIssue s.issues m.issue_id now ∧
          (returnBook s iid? bid? now).1.books =
            setBookStatus s.books m.book_id .AVAILABLE) := by
  refine ⟨?_, ?_, ?_⟩
  · rintro ⟨h1, h2⟩
    subst h1
    subst h2
    rfl
  · intro hsel hfil
    unfold returnBook
    have hcond : (iid?.isNone && bid?.isNone) = false := by
      rcases hsel with h | h <;> cases iid? <;> cases bid? <;> simp_all
    rw [if_neg (by simp [hcond])]
    rw [hfil]
    rfl
  · intro i hok
    by_cases hsel : (iid?.isNone && bid?.isNone) = true
    · unfold returnBook at hok
      rw [if_pos hsel] at hok
      exact absurd hok (by simp)
    · cases hpl : pickLatest (s.issues.filter fun i => openMatches i iid? bid?) with
      | none =>
        unfold returnBook at hok
        rw [if_neg hsel] at hok
        simp only [hpl] at hok
        exact absurd hok (by simp)
      | some m =>
        cases hfb : findBook s.books m.book_id with
        | none =>
          unfold returnBook at hok
          rw [if_neg hsel] at hok
          simp only [hpl, hfb] at hok
          exact absurd hok (by simp)
        | some bk =>
          have hre : returnBook s iid? bid? now =
              ({ s with issues := closeIssue s.issues m.issue_id now,
                        books := setBookStatus s.books m.book_id .AVAILABLE },
               .ok { m with returned_date := some now }) := by
            unfold returnBook
            rw [if_neg hsel]
            simp only [hpl, hfb]
          rw [hre] at hok
          have hmf := List.mem_filter.mp (pickLatest_mem hpl)
          refine ⟨m, hmf.1, hmf.2, ?_, ?_, ?_, ?_⟩
          · intro j hj hjm
            exact pickLatest_maximal hpl j (List.mem_filter.mpr ⟨hj, hjm⟩)
          · injection hok with h
            exact h.symm
          · rw [hre]
          · rw [hre]

/-- The concrete state used by the C3 witness: one issued book with one
open issue. -/
def stC3 : LibState :=
  ⟨[mkBook 1 .ISSUED], [⟨50, 1, 7, 10, 30, none⟩], [7]⟩

/-- Witness for C3: a successful return selected by book_id only. -/
theorem claim_C3_witness :
    ∃ m ∈ stC3.issues,
      openMatches m none (some 1) = true ∧
        (∀ j ∈ stC3.issues, openMatches j none (some 1) = true →
          j.issued_date ≤ m.issued_date) ∧
        ({ issue_id := 50, book_id := 1, user_id := 7, issued_date := 10,
           due_date := 30, returned_date := some 20 } : BookIssue) =
          { m with returned_date := some 20 } ∧
        (returnBook stC3 none (some 1) 20).1.issues =
          closeIssue stC3.issues m.issue_id 20 ∧
        (returnBook stC3 none (some 1) 20).1.books =
          setBookStatus stC3.books m.book_id .AVAILABLE :=
  (claim_C3 stC3 none (some 1) 20).2.2
    { issue_id := 50, book_id := 1, user_id := 7, issued_date := 10,
      due_date := 30, returned_date := some 20 } rfl

/-- C9: when the book exists with status ≠ AVAILABLE and the user does not
exist, issueBook answers `Conflict`, not `NotFound` — the availability check
runs before the user-existence check. -/
theorem claim_C9 (s : LibState) (bid uid due now nid : Nat) (b : Book)
    (hb : findBook s.books bid = some b) (hst : b.status ≠ .AVAILABLE)
    (hu : s.users.contains uid = false) :
    issueBook s bid uid due now nid = (s, .error .Conflict) := by
  unfold issueBook issueBookCheck
  simp only [hb]
  rw [if_pos hst]

/-- The concrete state used by the C9 witness. -/
def stC9 : LibState := ⟨[mkBook 1 .ISSUED], [], []⟩

/-- Witness for C9: issued book, user 5 absent. -/
theorem claim_C9_witness :
    findBook stC9.books 1 = some (mkBook 1 .ISSUED) ∧
      (mkBook 1 .ISSUED).status ≠ .AVAILABLE ∧
      stC9.users.contains 5 = false ∧
      issueBook stC9 1 5 30 10 100 = (stC9, .error .Conflict) :=
  ⟨rfl, by decide, rfl, claim_C9 stC9 1 5 30 10 100 (mkBook 1 .ISSUED) rfl (by decide) rfl⟩

/-- C10: with both selectors supplied they are combined conjunctively — if
the open issue carrying the given issue_id has a different book_id, no
issue matches, the result is `NotFound`, and the state is unchanged. -/
theorem claim_C10 (s : LibState) (iid bid now : Nat) (m : BookIssue)
    (huniq : UniqueIssueIds s.issues) (hm : m ∈ s.issues) (hid : m.issue_id = iid)
    (hopen : m.returned_date = none) (hb : m.book_id ≠ bid) :
    returnBook s (some iid) (some bid) now = (s, .error .NotFound) := by
  have hfil : s.issues.filter (fun i => openMatches i (some iid) (some bid)) = [] := by
    rw [List.filter_eq_nil_iff]
    intro j hj
    by_cases hjid : j.issue_id = iid
    · have hje : j = m := uniqueIssueIds_eq huniq hj hm (hjid.trans hid.symm)
      subst hje
      simp [openMatches, hb]
    · simp [openMatches, hjid]
  unfold returnBook
  rw [hfil]
  simp [pickLatest]

/-- The concrete state used by the C10 witness: open issue 50 is for book 1,
but the caller supplies book_id 2. -/
def stC10 : LibState :=
  ⟨[mkBook 1 .ISSUED, mkBook 2 .AVAILABLE], [⟨50, 1, 7, 10, 30, none⟩], [7]⟩

/-- Witness for C10. -/
theorem claim_C10_witness :
    UniqueIssueIds stC10.issues ∧
      (⟨50, 1, 7, 10, 30, none⟩ : BookIssue) ∈ stC10.issues ∧
      (⟨50, 1, 7, 10, 30, none⟩ : BookIssue).book_id ≠ 2 ∧
      returnBook stC10 (some 50) (some 2) 20 = (stC10, .error .NotFound) :=
  ⟨by decide, by decide, by decide,
    claim_C10 stC10 50 2 20 ⟨50, 1, 7, 10, 30, none⟩ (by decide) (by decide) rfl rfl
      (by decide)⟩

/-- The concrete state used by the C7 analysis: book 1 available, users 1
and 2 present, empty ledger. -/
def stC7 : LibState := ⟨[mkBook 1 .AVAILABLE], [], [1, 2]⟩

/-- C7 (code bug): the handler performs the availability check BEFORE
`prisma.$transaction`, so in the interleaving check₁, check₂, commit₁,
commit₂ both racing calls pass their pre-transaction checks against the
initial state and both transactions commit: the final state holds TWO open
issues for book 1 and violates the consistency invariant, where the claim
requires exactly one commit and one `Conflict`. -/
theorem claim_C7 :
    issueBookCheck stC7 1 1 = none ∧
      issueBookCheck stC7 1 2 = none ∧
      countOpen
        ((issueBookCommit (issueBookCommit stC7 1 1 30 10 101).1 1 2 30 11 102).1).issues
        1 = 2 ∧
      ¬ Consistent (issueBookCommit (issueBookCommit stC7 1 1 30 10 101).1 1 2 30 11 102).1 :=
  ⟨rfl, rfl, rfl, by decide⟩

/-- C4: an owner's verify call with outcome SUCCESS or FAILED updates the
payment (`transaction_id`, `payment_status`, `paid_at = now` iff SUCCESS else
null) and propagates the same status onto the parent print job, both in the
single resulting state of one transaction. -/
theorem claim_C4 (s : PayState) (pid : Nat) (tx : String) (st : VerifyStatus)
    (req now : Nat) (p : Payment) (j : PrintJob)
    (hp : findPayment s.payments pid = some p) (hown : p.user_id = req)
    (hj : findJob s.jobs p.print_id = some j) :
    verifyPayment s pid tx st req now =
      ({ jobs := setJobStatus s.jobs p.print_id st.toPayStatus,
         payments := updatePaymentRow s.payments pid tx st.toPayStatus
           (if st = .SUCCESS then some now else none) },
       .ok { p with
             transaction_id := some tx, payment_status := st.toPayStatus,
             paid_at := if st = .SUCCESS then some now else none }) := by
  unfold verifyPayment
  simp only [hp]
  rw [if_neg (not_not_intro hown)]
  simp only [hj]

/-- The concrete state used by the payment witnesses: job 4 of user 3 with
total_cost 20, and its pending payment 77. -/
def stPay : PayState :=
  ⟨[{ print_id := 4, user_id := 3, file_name := "f.pdf", total_pages := 10,
      cost_per_page := 2, total_cost := 20, payment_status := .PENDING }],
   [{ payment_id := 77, user_id := 3, print_id := 4, payment_method := .UPI,
      transaction_id := none, payment_status := .PENDING, paid_at := none }]⟩

/-- Witness for C4: owner 3 verifies payment 77 with SUCCESS. -/
theorem claim_C4_witness :
    findPayment stPay.payments 77 =
        some { payment_id := 77, user_id := 3, print_id := 4, payment_method := .UPI,
               transaction_id := none, payment_status := .PENDING, paid_at := none } ∧
      verifyPayment stPay 77 "TXN123" .SUCCESS 3 40 =
        ({ jobs := setJobStatus stPay.jobs 4 VerifyStatus.SUCCESS.toPayStatus,
           payments := updatePaymentRow stPay.payments 77 "TXN123"
             VerifyStatus.SUCCESS.toPayStatus
             (if (VerifyStatus.SUCCESS : VerifyStatus) = .SUCCESS then some 40 else none) },
         .ok { payment_id := 77, user_id := 3, print_id := 4, payment_method := .UPI,
               transaction_id := some "TXN123",
               payment_status := VerifyStatus.SUCCESS.toPayStatus,
               paid_at := if (VerifyStatus.SUCCESS : VerifyStatus) = .SUCCESS
                 then some 40 else none }) :=
  ⟨rfl, claim_C4 stPay 77 "TXN123" .SUCCESS 3 40
    { payment_id := 77, user_id := 3, print_id := 4, payment_method := .UPI,
      transaction_id := none, payment_status := .PENDING, paid_at := none }
    { print_id := 4, user_id := 3, file_name := "f.pdf", total_pages := 10,
      cost_per_page := 2, total_cost := 20, payment_status := .PENDING }
    rfl rfl rfl⟩

/-- C5: initiate on a print job that exists, belongs to the requester and is
already at payment_status SUCCESS fails `Conflict` for every payment method,
creating no payment and changing no state. -/
theorem claim_C5 (cfg : UpiConfig) (s : PayState) (print_id : Nat)
    (method : PaymentMethod) (req newPid : Nat) (j : PrintJob)
    (hj : findJob s.jobs print_id = some j) (hown : j.user_id = req)
    (hst : j.payment_status = .SUCCESS) :
    initiatePayment cfg s print_id method req newPid = (s, .error .Conflict) := by
  unfold initiatePayment
  simp only [hj]
  rw [if_neg (not_not_intro hown), if_pos hst]

/-- The concrete state used by the C5 witness: job 4 already paid. -/
def stC5 : PayState :=
  ⟨[{ print_id := 4, user_id := 3, file_name := "f.pdf", total_pages := 10,
      cost_per_page := 2, total_cost := 20, payment_status := .SUCCESS }], []⟩

/-- Witness for C5, with both payment methods. -/
theorem claim_C5_witness :
    findJob stC5.jobs 4 =
        some { print_id := 4, user_id := 3, file_name := "f.pdf", total_pages := 10,
               cost_per_page := 2, total_cost := 20, payment_status := .SUCCESS } ∧
      initiatePayment ⟨"library@upi", "E-Library"⟩ stC5 4 .UPI 3 88 =
        (stC5, .error .Conflict) ∧
      initiatePayment ⟨"library@upi", "E-Library"⟩ stC5 4 .GPAY 3 88 =
        (stC5, .error .Conflict) :=
  ⟨rfl,
   claim_C5 ⟨"library@upi", "E-Library"⟩ stC5 4 .UPI 3 88
     { print_id := 4, user_id := 3, file_name := "f.pdf", total_pages := 10,
       cost_per_page := 2, total_cost := 20, payment_status := .SUCCESS } rfl rfl rfl,
   claim_C5 ⟨"library@upi", "E-Library"⟩ stC5 4 .GPAY 3 88
     { print_id := 4, user_id := 3, file_name := "f.pdf", total_pages := 10,
       cost_per_page := 2, total_cost := 20, payment_status := .SUCCESS } rfl rfl rfl⟩

/-- C6: a successful initiate creates exactly one new `PENDING` payment, does
not mutate the print job list, and returns the UPI URI computed by
`buildUpiPayUri` from the payee identifier, payee name, the job's total_cost
(formatted to two decimals inside `buildUpiPayUri`), the fixed currency, the
note referencing the print id, and the new payment id as reference. -/
theorem claim_C6 (cfg : UpiConfig) (s : PayState) (print_id : Nat)
    (method : PaymentMethod) (req newPid : Nat) (j : PrintJob)
    (hj : findJob s.jobs print_id = some j) (hown : j.user_id = req)
    (hst : j.payment_status ≠ .SUCCESS) :
    initiatePayment cfg s print_id method req newPid =
      ({ jobs := s.jobs,
         payments :=
           ({ payment_id := newPid, user_id := req, print_id := print_id,
              payment_method := method, transaction_id := none,
              payment_status := .PENDING, paid_at := none } : Payment) :: s.payments },
       .ok ({ payment_id := newPid, user_id := req, print_id := print_id,
              payment_method := method, transaction_id := none,
              payment_status := .PENDING, paid_at := none },
            buildUpiPayUri
              { payeeVpa := cfg.vpa, payeeName := cfg.payeeName,
                amount := j.total_cost,
                transactionNote := "Print job " ++ toString j.print_id,
                transactionRef := toString newPid })) := by
  unfold initiatePayment
  simp only [hj]
  rw [if_neg (not_not_intro hown), if_neg hst]

/-- Witness for C6: the spec scenario — total_cost 20 yields a URI whose
amount parameter is "20.00". -/
theorem claim_C6_witness :
    initiatePayment ⟨"library@upi", "E-Library"⟩ stPay 4 .UPI 3 88 =
      ({ jobs := stPay.jobs,
         payments :=
           ({ payment_id := 88, user_id := 3, print_id := 4,
              payment_method := .UPI, transaction_id := none,
              payment_status := .PENDING, paid_at := none } : Payment) :: stPay.payments },
       .ok ({ payment_id := 88, user_id := 3, print_id := 4,
              payment_method := .UPI, transaction_id := none,
              payment_status := .PENDING, paid_at := none },
            buildUpiPayUri
              { payeeVpa := "library@upi", payeeName := "E-Library",
                amount := 20, transactionNote := "Print job " ++ toString 4,
                transactionRef := toString 88 })) ∧
      buildUpiPayUri
          { payeeVpa := "library@upi", payeeName := "E-Library",
            amount := 20, transactionNote := "Print job " ++ toString 4,
            transactionRef := toString 88 } =
        "upi://pay?pa=library%40upi&pn=E-Library&am=20.00&cu=INR&tn=Print+job+4&tr=88" :=
  ⟨claim_C6 ⟨"library@upi", "E-Library"⟩ stPay 4 .UPI 3 88
    { print_id := 4, user_id := 3, file_name := "f.pdf", total_pages := 10,
      cost_per_page := 2, total_cost := 20, payment_status := .PENDING }
    rfl rfl (by decide), rfl⟩

/-- C8: payment status on an existing payment (with its parent job) is
readable by the owner or by LIBRARY_ADMIN / SUPER_ADMIN, returning the
payment plus the job's cost and status; every other requester gets
`Forbidden`.  The operation is a pure read: it produces no new state. -/
theorem claim_C8 (s : PayState) (pid reqId : Nat) (reqRole : Role)
    (p : Payment) (j : PrintJob)
    (hp : findPayment s.payments pid = some p)
    (hj : findJob s.jobs p.print_id = some j) :
    paymentStatus s pid reqId reqRole =
      if p.user_id = reqId ∨ reqRole = .LIBRARY_ADMIN ∨ reqRole = .SUPER_ADMIN
      then .ok (p, { total_cost := j.total_cost, payment_status := j.payment_status })
      else .error .Forbidden := by
  unfold paymentStatus
  simp only [hp, hj]
  cases reqRole <;> by_cases ho : p.user_id = reqId <;> simp [ho]

/-- Witness for C8: the owner (user 3) and a plain non-owner USER. -/
theorem claim_C8_witness :
    paymentStatus stPay 77 3 .USER =
        (if (3 : Nat) = 3 ∨ (Role.USER = .LIBRARY_ADMIN ∨ Role.USER = .SUPER_ADMIN)
         then .ok
           ({ payment_id := 77, user_id := 3, print_id := 4, payment_method := .UPI,
              transaction_id := none, payment_status := .PENDING, paid_at := none },
            { total_cost := 20, payment_status := .PENDING })
         else .error .Forbidden) ∧
      paymentStatus stPay 77 9 .USER =
        (if (3 : Nat) = 9 ∨ (Role.USER = .LIBRARY_ADMIN ∨ Role.USER = .SUPER_ADMIN)
         then .ok
           ({ payment_id := 77, user_id := 3, print_id := 4, payment_method := .UPI,
              transaction_id := none, payment_status := .PENDING, paid_at := none },
            { total_cost := 20, payment_status := .PENDING })
         else .error .Forbidden) :=
  ⟨claim_C8 stPay 77 3 .USER
    { payment_id := 77, user_id := 3, print_id := 4, payment_method := .UPI,
      transaction_id := none, payment_status := .PENDING, paid_at := none }
    { print_id := 4, user_id := 3, file_name := "f.pdf", total_pages := 10,
      cost_per_page := 2, total_cost := 20, payment_status := .PENDING } rfl rfl,
   claim_C8 stPay 77 9 .USER
    { payment_id := 77, user_id := 3, print_id := 4, payment_method := .UPI,
      transaction_id := none, payment_status := .PENDING, paid_at := none }
    { print_id := 4, user_id := 3, file_name := "f.pdf", total_pages := 10,
      cost_per_page := 2, total_cost := 20, payment_status := .PENDING } rfl rfl⟩
